import Mathlib

/-!
Shallow embedding of the FPK spreadsheet-to-CSV conversion pipeline
(source file fpk2csv.py) together with proofs of the specified
properties.

Modelling conventions:
* A worksheet cell is either blank (pandas NaN) or a scalar rendered as a
  string; `Cell.blank` stands for NaN.
* A raw sheet is the row-major grid returned by
  pandas read_excel(header=None); pandas pads the used range to a
  rectangle with NaN, which `readGrid` reproduces.
* The filesystem seen by the writer is an association list from output
  paths to the written tables; `os.path.exists` is lookup success.
* Regex character class \d matches every Unicode decimal digit in
  Python; the model carries the ASCII digit block and, as a
  representative non-ASCII block, the Arabic-Indic digits
  U+0660..U+0669 — every other decimal-digit block behaves alike.
* Paths are joined with the / separator.
-/

namespace FPK

/-- A spreadsheet cell: blank (NaN) or a scalar value rendered as text. -/
inductive Cell where
  | blank : Cell
  | str : String → Cell
deriving DecidableEq

/-- A raw worksheet as read by pandas read_excel(header=None). -/
abbrev Grid := List (List Cell)

/-- A calendar date (year, month, day). -/
structure Date where
  year : Nat
  month : Nat
  day : Nat
deriving DecidableEq

/-! ## Digits and date rendering (strptime / strftime model) -/

/-- Value of an ASCII decimal digit character, none otherwise. -/
def digitValAscii (c : Char) : Option Nat :=
  if c = '0' then some 0
  else if c = '1' then some 1
  else if c = '2' then some 2
  else if c = '3' then some 3
  else if c = '4' then some 4
  else if c = '5' then some 5
  else if c = '6' then some 6
  else if c = '7' then some 7
  else if c = '8' then some 8
  else if c = '9' then some 9
  else none

/-- Value of an Arabic-Indic decimal digit U+0660..U+0669, none
otherwise. -/
def digitValArabic (c : Char) : Option Nat :=
  if c = '٠' then some 0
  else if c = '١' then some 1
  else if c = '٢' then some 2
  else if c = '٣' then some 3
  else if c = '٤' then some 4
  else if c = '٥' then some 5
  else if c = '٦' then some 6
  else if c = '٧' then some 7
  else if c = '٨' then some 8
  else if c = '٩' then some 9
  else none

/-- Value of a decimal digit character, none otherwise: the regex
class \d together with the int conversion strptime applies. Python
matches every Unicode decimal digit here; the model carries the ASCII
block and, representatively, the Arabic-Indic block U+0660..U+0669 —
every other decimal-digit block behaves like the latter. -/
def digitVal (c : Char) : Option Nat :=
  (digitValAscii c).orElse (fun _ => digitValArabic c)

/-- Whether a character is a decimal digit (regex \d). -/
def isDig (c : Char) : Bool := (digitVal c).isSome

/-- Numeric value of a digit character, defaulting to 0. -/
def dv (c : Char) : Nat := (digitVal c).getD 0

/-- Two digit characters read as a number (int of a 2-char slice). -/
def num2 (a b : Char) : Nat := 10 * dv a + dv b

/-- Four digit characters read as a number (int of a 4-char slice). -/
def num4 (a b c d : Char) : Nat :=
  1000 * dv a + 100 * dv b + 10 * dv c + dv d

/-- Zero-padded two-digit rendering (strftime %m / %d). -/
def pad2 (n : Nat) : List Char := [Nat.digitChar (n / 10 % 10), Nat.digitChar (n % 10)]

/-- Zero-padded four-digit rendering (strftime %Y). -/
def pad4 (n : Nat) : List Char :=
  [Nat.digitChar (n / 1000 % 10), Nat.digitChar (n / 100 % 10),
   Nat.digitChar (n / 10 % 10), Nat.digitChar (n % 10)]

/-- Gregorian leap-year rule used by datetime. -/
def isLeap (y : Nat) : Bool := y % 4 = 0 && (y % 100 ≠ 0 || y % 400 = 0)

/-- Days in a month of a given year, as validated by datetime. -/
def daysInMonth (y m : Nat) : Nat :=
  if m = 2 then (if isLeap y then 29 else 28)
  else if m = 4 ∨ m = 6 ∨ m = 9 ∨ m = 11 then 30
  else 31

/-- Calendar validity as enforced by datetime.strptime: year in
MINYEAR..MAXYEAR, month 1..12, day 1..days of that month. -/
def validDate (y m d : Nat) : Prop :=
  1 ≤ y ∧ y ≤ 9999 ∧ 1 ≤ m ∧ m ≤ 12 ∧ 1 ≤ d ∧ d ≤ daysInMonth y m

instance (y m d : Nat) : Decidable (validDate y m d) :=
  inferInstanceAs (Decidable (1 ≤ y ∧ y ≤ 9999 ∧ 1 ≤ m ∧ m ≤ 12 ∧ 1 ≤ d ∧ d ≤ daysInMonth y m))

/-- Parse a separated date grammar YYYYsMMsDD with separator s: the
regex match (shape plus digits) followed by the strptime validity
check, as one of the first three alternatives tried by
validate_date_folder_name (fpk2csv.py lines 145-164). -/
def parseSep (sep : Char) (s : List Char) : Option Date :=
  match s with
  | [y1, y2, y3, y4, a, m1, m2, b, d1, d2] =>
    if a = sep ∧ b = sep ∧ isDig y1 ∧ isDig y2 ∧ isDig y3 ∧ isDig y4 ∧
        isDig m1 ∧ isDig m2 ∧ isDig d1 ∧ isDig d2 then
      let y := num4 y1 y2 y3 y4
      let m := num2 m1 m2
      let d := num2 d1 d2
      if validDate y m d then some ⟨y, m, d⟩ else none
    else none
  | _ => none

/-- Parse the compact grammar YYYYMMDD: the fourth alternative of
validate_date_folder_name (fpk2csv.py lines 149, 155-156). -/
def parseCompact (s : List Char) : Option Date :=
  match s with
  | [y1, y2, y3, y4, m1, m2, d1, d2] =>
    if isDig y1 ∧ isDig y2 ∧ isDig y3 ∧ isDig y4 ∧
        isDig m1 ∧ isDig m2 ∧ isDig d1 ∧ isDig d2 then
      let y := num4 y1 y2 y3 y4
      let m := num2 m1 m2
      let d := num2 d1 d2
      if validDate y m d then some ⟨y, m, d⟩ else none
    else none
  | _ => none

/-- validate_date_folder_name (fpk2csv.py lines 140-165): try the four
grammars in order — dash, dot, underscore, compact — returning the first
date that matches a grammar and is a valid calendar date. The separator
sets are disjoint, so the in-order fallthrough on strptime failure never
reaches a second matching grammar. -/
def validate_date_folder_name (s : List Char) : Option Date :=
  match parseSep '-' s with
  | some d => some d
  | none =>
    match parseSep '.' s with
    | some d => some d
    | none =>
      match parseSep '_' s with
      | some d => some d
      | none => parseCompact s

/-- The four folder-name date grammars. -/
inductive Grammar where
  | dashed : Grammar
  | dotted : Grammar
  | underscored : Grammar
  | compact : Grammar
deriving DecidableEq

/-- The regex of a separated grammar (shape and digit classes only). -/
def matchesSep (sep : Char) (s : List Char) : Bool :=
  match s with
  | [y1, y2, y3, y4, a, m1, m2, b, d1, d2] =>
    a = sep && b = sep && isDig y1 && isDig y2 && isDig y3 && isDig y4 &&
      isDig m1 && isDig m2 && isDig d1 && isDig d2
  | _ => false

/-- The regex of the compact grammar (eight ASCII digits). -/
def matchesCompact (s : List Char) : Bool :=
  match s with
  | [y1, y2, y3, y4, m1, m2, d1, d2] =>
    isDig y1 && isDig y2 && isDig y3 && isDig y4 &&
      isDig m1 && isDig m2 && isDig d1 && isDig d2
  | _ => false

/-- Whether a folder name matches the regex of a grammar. -/
def matchesGrammar : Grammar → List Char → Bool
  | .dashed, s => matchesSep '-' s
  | .dotted, s => matchesSep '.' s
  | .underscored, s => matchesSep '_' s
  | .compact, s => matchesCompact s

/-- Render a date in the format of a grammar (strftime with the
format string of the grammar). -/
def formatDate : Grammar → Date → List Char
  | .dashed, d => pad4 d.year ++ '-' :: (pad2 d.month ++ '-' :: pad2 d.day)
  | .dotted, d => pad4 d.year ++ '.' :: (pad2 d.month ++ '.' :: pad2 d.day)
  | .underscored, d => pad4 d.year ++ '_' :: (pad2 d.month ++ '_' :: pad2 d.day)
  | .compact, d => pad4 d.year ++ pad2 d.month ++ pad2 d.day

/-- Date.strftime of the ISO format, as a string. -/
def isoDate (d : Date) : String := String.mk (formatDate .dashed d)

/-- Date.strftime of the compact format, as a string. -/
def compactDate (d : Date) : String := String.mk (formatDate .compact d)

/-! ## Name sanitizer (fpk2csv.py lines 220-236) -/

/-- Characters replaced by the first substitution: dot and ellipsis. -/
def isDotEll (c : Char) : Bool := c = '.' || c = '…'

/-- Reserved filesystem characters replaced by the second
substitution. -/
def isReservedChar (c : Char) : Bool :=
  c = '/' || c = '\\' || c = ':' || c = '*' || c = '?' ||
    c = '"' || c = '<' || c = '>' || c = '|'

/-- First substitution: dots and ellipsis become underscores. -/
def repl1 (c : Char) : Char := if isDotEll c then '_' else c

/-- Second substitution: reserved characters become underscores. -/
def repl2 (c : Char) : Char := if isReservedChar c then '_' else c

/-- Collapse every run of two or more consecutive underscores to a
single underscore (the third substitution). -/
def collapseUnd : List Char → List Char
  | [] => []
  | [c] => [c]
  | a :: b :: rest =>
    if a = '_' ∧ b = '_' then collapseUnd (b :: rest)
    else a :: collapseUnd (b :: rest)

/-- Characters removed from both ends by the final strip. -/
def isStripC (c : Char) : Bool := c = ' ' || c = '_'

/-- Python str.strip with the space-underscore character set: drop
matching characters from both ends. -/
def stripEnds (l : List Char) : List Char :=
  ((l.dropWhile isStripC).reverse.dropWhile isStripC).reverse

/-- sanitize_sheet_name on character lists: the substitutions in source
order — dots and ellipsis, then reserved characters, then underscore-run
collapse, then the strip — with the empty-result fallback to Sheet. -/
def sanitizeL (s : List Char) : List Char :=
  if stripEnds (collapseUnd ((s.map repl1).map repl2)) = []
  then ['S', 'h', 'e', 'e', 't']
  else stripEnds (collapseUnd ((s.map repl1).map repl2))

/-- sanitize_sheet_name (fpk2csv.py lines 220-236). -/
def sanitize_sheet_name (s : String) : String := String.mk (sanitizeL s.data)

/-! ## Per-sheet normalization (fpk2csv.py lines 248-330) -/

/-- Column count of the frame pandas builds from a sheet: the widest
row of the used range. -/
def gridWidth (g : Grid) : Nat := (g.map List.length).foldr max 0

/-- Pad one row to the frame width with NaN, as pandas does. -/
def padRow (w : Nat) (r : List Cell) : List Cell :=
  r ++ List.replicate (w - r.length) Cell.blank

/-- The rectangular frame pandas read_excel(header=None) returns for a
raw sheet (line 250). -/
def readGrid (g : Grid) : Grid := g.map (padRow (gridWidth g))

/-- df.empty: a frame is empty when it has no rows or no columns. -/
def dfEmpty (g : Grid) : Prop := g = [] ∨ gridWidth g = 0

instance (g : Grid) : Decidable (dfEmpty g) :=
  inferInstanceAs (Decidable (g = [] ∨ gridWidth g = 0))

/-- Whether a cell is NaN (isna). -/
def isBlank (c : Cell) : Bool := c = Cell.blank

/-- The first-column emptiness test (lines 263-265): the share of NaN
cells in column 0 strictly exceeds 0.8. With at most 1048576 rows the
float comparison agrees with the exact rational one, so it is modelled
as 5 * blanks > 4 * rows. -/
def firstColMostlyBlank (rows : Grid) : Bool :=
  5 * ((rows.map (fun r => r.headD Cell.blank)).countP isBlank) > 4 * rows.length

/-- Drop the first column when it exists and is mostly blank
(lines 262-266); row count is unchanged. -/
def dropFirstCol (rows : Grid) : Grid :=
  if 0 < gridWidth rows ∧ firstColMostlyBlank rows then rows.map List.tail
  else rows

/-- The effective header row index (lines 268-273): index 4, adjusted
to the last available index when the frame is shorter. -/
def headerIdx (len : Nat) : Nat :=
  if 4 ≥ len then (if len > 1 then min 4 (len - 1) else 0) else 4

/-- A row every cell of which is NaN (dropped by dropna(how=all)). -/
def allBlankRow (r : List Cell) : Bool := r.all isBlank

/-- The normalized table written for one successful sheet: the promoted
header names and the surviving data rows. -/
structure NormalizedTable where
  cols : List Cell
  rows : List (List Cell)
deriving DecidableEq

/-- Result of the pure part of one sheet conversion attempt, up to and
including computing the output path (lines 250-310). -/
inductive SheetPure where
  | skipInsufficient : SheetPure
  | skipNoData : SheetPure
  | ready : NormalizedTable → String → String → SheetPure
deriving DecidableEq

/-- Destination of one sheet (lines 304-310):
base/<sanitized>/<sanitized> <YYYYMMDD>.csv. -/
def output_path (base sheet_name : String) (d : Date) : String :=
  let san := sanitize_sheet_name sheet_name
  base ++ "/" ++ san ++ "/" ++ san ++ " " ++ compactDate d ++ ".csv"

/-- The header columns a sheet promotes: row headerIdx of the frame
after the conditional first-column drop (lines 276-278). -/
def promotedCols (g : Grid) : List Cell :=
  (dropFirstCol (readGrid g)).getD (headerIdx g.length) []

/-- The data rows kept after header promotion (lines 281-284) and the
blank-row drop (line 287). -/
def keptRows (g : Grid) : List (List Cell) :=
  let df := dropFirstCol (readGrid g)
  let h := headerIdx g.length
  (if h + 1 < g.length then df.drop (h + 1) else []).filter
    (fun r => !allBlankRow r)

/-- The pure pipeline of process_excel_file for one sheet (fpk2csv.py
lines 250-310): the empty / too-short rejection, the first-column drop,
header promotion, blank-row removal, the no-data rejection, the Date
column insertion and the output path computation. The source guard
len(df) > header_row is omitted because it always holds once len ≥ 2
(lemma headerIdx_lt below). -/
def sheet_pure (g : Grid) (date : Date) (sheet_name base : String) : SheetPure :=
  if dfEmpty (readGrid g) ∨ g.length < 2 then .skipInsufficient
  else
    let cols := promotedCols g
    let rows := keptRows g
    if rows = [] then .skipNoData
    else
      let table : NormalizedTable :=
        if Cell.str "Date" ∈ cols then ⟨cols, rows⟩
        else ⟨Cell.str "Date" :: cols,
              rows.map (fun r => Cell.str (isoDate date) :: r)⟩
      .ready table (sanitize_sheet_name sheet_name)
        (output_path base sheet_name date)

/-! ## Stateful writer and per-file processing (fpk2csv.py 238-349) -/

/-- The output filesystem: written CSV files as path-table pairs. -/
abbrev FS := List (String × NormalizedTable)

/-- os.path.exists / file content at a path. -/
def fsLookup (fs : FS) (p : String) : Option NormalizedTable :=
  (fs.find? (fun e => e.1 = p)).map (fun e => e.2)

/-- Outcome status of one (file, sheet) attempt. -/
inductive Status where
  | success : Status
  | skipped : Status
  | error : Status
deriving DecidableEq

/-- One outcome record, as the dicts appended to processed_files. -/
structure Record where
  status : Status
  file_path : String
  reason : Option String
  sheet_name : String
  rows_processed : Option Nat
deriving DecidableEq

/-- One sheet conversion attempt against the output filesystem
(fpk2csv.py lines 248-330): run the pure pipeline, then skip when the
destination exists, otherwise write and report success. -/
def process_sheet (g : Grid) (date : Date) (sheet_name base : String)
    (fs : FS) : Record × FS :=
  match sheet_pure g date sheet_name base with
  | .skipInsufficient =>
    (⟨.skipped, "", some "Sheet is empty or has insufficient data",
      sheet_name, none⟩, fs)
  | .skipNoData =>
    (⟨.skipped, "", some "No data rows after processing", sheet_name, none⟩, fs)
  | .ready t _ path =>
    if (fsLookup fs path).isSome then
      (⟨.skipped, path, some "File already exists", sheet_name, none⟩, fs)
    else
      (⟨.success, path, none, sheet_name, some t.rows.length⟩, (path, t) :: fs)

/-- The content of one sheet of a workbook: a readable grid, or an
exception raised while reading or transforming it. -/
inductive SheetData where
  | ok : Grid → SheetData
  | raises : String → SheetData

/-- A workbook: either pd.ExcelFile fails to open it, or it exposes an
ordered list of named sheets. -/
inductive Workbook where
  | openFail : String → Workbook
  | sheets : List (String × SheetData) → Workbook

/-- One iteration of the sheet loop (lines 247-339): a sheet exception
is caught and recorded as an error against the source path; otherwise
the sheet is converted. -/
def sheet_step (date : Date) (src base : String) (nd : String × SheetData)
    (fs : FS) : Record × FS :=
  match nd.2 with
  | .raises msg =>
    (⟨.error, src, some ("Sheet processing error: " ++ msg), nd.1, none⟩, fs)
  | .ok g => process_sheet g date nd.1 base fs

/-- The sheet loop of process_excel_file, threading the filesystem. -/
def process_sheets (date : Date) (src base : String) :
    List (String × SheetData) → FS → List Record × FS
  | [], fs => ([], fs)
  | nd :: rest, fs =>
    let rf := sheet_step date src base nd fs
    let rs := process_sheets date src base rest rf.2
    (rf.1 :: rs.1, rs.2)

/-- process_excel_file (fpk2csv.py lines 238-349): open the workbook—
on failure report exactly one error record with sheet name unknown—then
process every sheet in order. -/
def process_excel_file (wb : Workbook) (date : Date) (src base : String)
    (fs : FS) : List Record × FS :=
  match wb with
  | .openFail msg => ([⟨.error, src, some msg, "unknown", none⟩], fs)
  | .sheets l => process_sheets date src base l fs

/-! ## Folder scanner (fpk2csv.py lines 179-218) -/

/-- One immediate child of the input root: a subdirectory with its
directly contained file names, or a plain file. -/
inductive Entry where
  | dir : String → List String → Entry
  | file : String → Entry

/-- A dot-hidden name, which glob never matches with a star pattern. -/
def hiddenName (f : String) : Bool := decide (f.data.head? = some '.')

/-- Case-sensitive suffix test on character lists. -/
def endsWithL (l suffix : List Char) : Bool :=
  decide (l.drop (l.length - suffix.length) = suffix)

/-- glob of star-dot-xlsx inside a partition: POSIX glob matches names
case-sensitively and hides names starting with a dot. -/
def matchXlsxName (f : String) : Bool :=
  !hiddenName f && endsWithL f.data (".xlsx").data

/-- glob of star-dot-xls inside a partition, with the same POSIX glob
semantics. -/
def matchXlsName (f : String) : Bool :=
  !hiddenName f && endsWithL f.data (".xls").data

/-- One recognized date partition (the date_folders entries). -/
structure DateFolder where
  name : String
  path : String
  date : Date
  file_count : Nat
deriving DecidableEq

/-- One enumerated spreadsheet file (the excel_files entries). -/
structure ExcelFile where
  path : String
  date : Date
  folder_name : String
deriving DecidableEq

/-- The scan result dict of scan_fpk_structure. -/
structure ScanResult where
  date_folders : List DateFolder
  excel_files : List ExcelFile
  total_files : Nat
  total_date_folders : Nat
deriving DecidableEq

/-- The body of the scan loop for one directory entry (lines 188-211):
plain files and non-date-named directories are skipped silently; a
recognized partition contributes its globbed spreadsheet files. -/
def scanStep (root : String) (acc : List DateFolder × List ExcelFile × Nat)
    (item : Entry) : List DateFolder × List ExcelFile × Nat :=
  match item with
  | .file _ => acc
  | .dir name files =>
    match validate_date_folder_name name.data with
    | none => acc
    | some d =>
      let xlsx := files.filter matchXlsxName
      let xls := files.filter matchXlsName
      let cnt := xlsx.length + xls.length
      (acc.1 ++ [⟨name, root ++ "/" ++ name, d, cnt⟩],
       acc.2.1 ++ (xlsx ++ xls).map
         (fun f => ⟨root ++ "/" ++ name ++ "/" ++ f, d, name⟩),
       acc.2.2 + cnt)

/-- scan_fpk_structure (fpk2csv.py lines 179-218): none when the root
does not exist, otherwise the fold of scanStep over the
immediate entries of the root. -/
def scan_fpk_structure (root : String) (entries : Option (List Entry)) :
    Option ScanResult :=
  match entries with
  | none => none
  | some items =>
    let r := items.foldl (scanStep root) ([], [], 0)
    some ⟨r.1, r.2.1, r.2.2, r.1.length⟩

/-- No two adjacent underscores, as a chain relation. -/
def Rund (a b : Char) : Prop := ¬(a = '_' ∧ b = '_')

instance : DecidableRel Rund := fun a b =>
  inferInstanceAs (Decidable (¬(a = '_' ∧ b = '_')))

/-- A sheet whose promoted header row names Date in the second
position, with a first column that is never blank. -/
def gridC5 : Grid :=
  [[Cell.str "r0", Cell.str "x"],
   [Cell.str "r1", Cell.str "x"],
   [Cell.str "r2", Cell.str "x"],
   [Cell.str "r3", Cell.str "x"],
   [Cell.str "A", Cell.str "Date"],
   [Cell.str "v", Cell.str "2020-05-05"]]

/-- The 6-row Q1 Report sheet of the specification scenario: first
column entirely blank, header content at row index 4, one data row. -/
def gridC3 : Grid :=
  [[Cell.blank, Cell.str "Campaign Report", Cell.blank],
   [Cell.blank, Cell.blank, Cell.blank],
   [Cell.blank, Cell.blank, Cell.blank],
   [Cell.blank, Cell.blank, Cell.blank],
   [Cell.blank, Cell.str "Metric", Cell.str "Value"],
   [Cell.blank, Cell.str "Clicks", Cell.str "10"]]

/-- The table the scenario sheet normalizes to. -/
def tableC3 : NormalizedTable :=
  ⟨[Cell.str "Date", Cell.str "Metric", Cell.str "Value"],
   [[Cell.str "2024-01-15", Cell.str "Clicks", Cell.str "10"]]⟩

/-- Every file recorded in the first filesystem is intact, with the
same content, in the second. -/
def fsExtends (fs fs2 : FS) : Prop :=
  ∀ p t, fsLookup fs p = some t → fsLookup fs2 p = some t

/-! ## Digit and date round-trip lemmas -/

lemma digitValAscii_lt_and_char (c : Char) (k : Nat)
    (h : digitValAscii c = some k) : k < 10 ∧ Nat.digitChar k = c := by
  unfold digitValAscii at h
  split_ifs at h <;>
    first
      | exact Option.noConfusion h
      | (injection h with h2; subst h2; subst_vars; exact ⟨by norm_num, by decide⟩)

lemma digitValArabic_none (c : Char) (hascii : c.toNat < 128) :
    digitValArabic c = none := by
  unfold digitValArabic
  split_ifs <;>
    first
      | rfl
      | (subst_vars; exact absurd hascii (by decide))

lemma digitVal_ascii_of_lt (c : Char) (k : Nat) (hascii : c.toNat < 128)
    (h : digitVal c = some k) : digitValAscii c = some k := by
  unfold digitVal at h
  cases ha : digitValAscii c with
  | some m =>
    rw [ha] at h
    simp only [Option.orElse] at h
    exact h
  | none =>
    rw [ha, digitValArabic_none c hascii] at h
    simp only [Option.orElse] at h
    exact h

lemma digitVal_lt_and_char (c : Char) (k : Nat) (hascii : c.toNat < 128)
    (h : digitVal c = some k) : k < 10 ∧ Nat.digitChar k = c :=
  digitValAscii_lt_and_char c k (digitVal_ascii_of_lt c k hascii h)

lemma isDig_exists (c : Char) (h : isDig c = true) :
    ∃ k, digitVal c = some k ∧ dv c = k := by
  unfold isDig at h
  obtain ⟨k, hk⟩ := Option.isSome_iff_exists.mp h
  exact ⟨k, hk, by simp [dv, hk]⟩

lemma pad2_num2 (a b : Char) (ha : isDig a = true) (hb : isDig b = true)
    (ha2 : a.toNat < 128) (hb2 : b.toNat < 128) :
    pad2 (num2 a b) = [a, b] := by
  obtain ⟨ka, hka, hdva⟩ := isDig_exists a ha
  obtain ⟨kb, hkb, hdvb⟩ := isDig_exists b hb
  obtain ⟨hka10, hkac⟩ := digitVal_lt_and_char a ka ha2 hka
  obtain ⟨hkb10, hkbc⟩ := digitVal_lt_and_char b kb hb2 hkb
  unfold pad2 num2
  rw [hdva, hdvb]
  have e1 : (10 * ka + kb) / 10 % 10 = ka := by omega
  have e2 : (10 * ka + kb) % 10 = kb := by omega
  rw [e1, e2, hkac, hkbc]

lemma pad4_num4 (a b c d : Char) (ha : isDig a = true) (hb : isDig b = true)
    (hc : isDig c = true) (hd : isDig d = true)
    (ha2 : a.toNat < 128) (hb2 : b.toNat < 128)
    (hc2 : c.toNat < 128) (hd2 : d.toNat < 128) :
    pad4 (num4 a b c d) = [a, b, c, d] := by
  obtain ⟨ka, hka, hdva⟩ := isDig_exists a ha
  obtain ⟨kb, hkb, hdvb⟩ := isDig_exists b hb
  obtain ⟨kc, hkc, hdvc⟩ := isDig_exists c hc
  obtain ⟨kd, hkd, hdvd⟩ := isDig_exists d hd
  obtain ⟨hka10, hkac⟩ := digitVal_lt_and_char a ka ha2 hka
  obtain ⟨hkb10, hkbc⟩ := digitVal_lt_and_char b kb hb2 hkb
  obtain ⟨hkc10, hkcc⟩ := digitVal_lt_and_char c kc hc2 hkc
  obtain ⟨hkd10, hkdc⟩ := digitVal_lt_and_char d kd hd2 hkd
  unfold pad4 num4
  rw [hdva, hdvb, hdvc, hdvd]
  have e1 : (1000 * ka + 100 * kb + 10 * kc + kd) / 1000 % 10 = ka := by omega
  have e2 : (1000 * ka + 100 * kb + 10 * kc + kd) / 100 % 10 = kb := by omega
  have e3 : (1000 * ka + 100 * kb + 10 * kc + kd) / 10 % 10 = kc := by omega
  have e4 : (1000 * ka + 100 * kb + 10 * kc + kd) % 10 = kd := by omega
  rw [e1, e2, e3, e4, hkac, hkbc, hkcc, hkdc]

lemma parseSep_roundtrip (sep : Char) (s : List Char) (d : Date)
    (hascii : ∀ c ∈ s, c.toNat < 128) (h : parseSep sep s = some d) :
    pad4 d.year ++ sep :: (pad2 d.month ++ sep :: pad2 d.day) = s := by
  rcases s with _ | ⟨c1, _ | ⟨c2, _ | ⟨c3, _ | ⟨c4, _ | ⟨s1, _ | ⟨c5, _ | ⟨c6, _ |
    ⟨s2, _ | ⟨c7, _ | ⟨c8, _ | ⟨c9, rest⟩⟩⟩⟩⟩⟩⟩⟩⟩⟩⟩ <;>
    first
      | exact Option.noConfusion h
      | skip
  simp only [parseSep] at h
  split_ifs at h with hcond hval
  obtain ⟨hs1, hs2, h1, h2, h3, h4, h5, h6, h7, h8⟩ := hcond
  injection h with h
  subst h
  subst hs1
  subst hs2
  simp [pad4_num4 c1 c2 c3 c4 h1 h2 h3 h4 (hascii c1 (by simp))
      (hascii c2 (by simp)) (hascii c3 (by simp)) (hascii c4 (by simp)),
    pad2_num2 c5 c6 h5 h6 (hascii c5 (by simp)) (hascii c6 (by simp)),
    pad2_num2 c7 c8 h7 h8 (hascii c7 (by simp)) (hascii c8 (by simp))]

lemma parseCompact_roundtrip (s : List Char) (d : Date)
    (hascii : ∀ c ∈ s, c.toNat < 128) (h : parseCompact s = some d) :
    pad4 d.year ++ pad2 d.month ++ pad2 d.day = s := by
  rcases s with _ | ⟨c1, _ | ⟨c2, _ | ⟨c3, _ | ⟨c4, _ | ⟨c5, _ | ⟨c6, _ |
    ⟨c7, _ | ⟨c8, _ | ⟨c9, rest⟩⟩⟩⟩⟩⟩⟩⟩⟩ <;>
    first
      | exact Option.noConfusion h
      | skip
  simp only [parseCompact] at h
  split_ifs at h with hcond hval
  obtain ⟨h1, h2, h3, h4, h5, h6, h7, h8⟩ := hcond
  injection h with h
  subst h
  simp [pad4_num4 c1 c2 c3 c4 h1 h2 h3 h4 (hascii c1 (by simp))
      (hascii c2 (by simp)) (hascii c3 (by simp)) (hascii c4 (by simp)),
    pad2_num2 c5 c6 h5 h6 (hascii c5 (by simp)) (hascii c6 (by simp)),
    pad2_num2 c7 c8 h7 h8 (hascii c7 (by simp)) (hascii c8 (by simp))]

/-- C6 (amended): for every folder name accepted by the date parser
all of whose characters are ASCII, reformatting the parsed date with
the format of the grammar the name matches reproduces the original
folder-name string exactly. An accepted name with non-ASCII decimal
digits — which the regex class \d and strptime also admit — is not
reproduced, as the counterexample below shows. -/
theorem date_roundtrip (s : List Char) (d : Date) (g : Grammar)
    (hv : validate_date_folder_name s = some d)
    (hm : matchesGrammar g s = true)
    (hascii : ∀ c ∈ s, c.toNat < 128) : formatDate g d = s := by
  unfold validate_date_folder_name at hv
  cases hdash : parseSep '-' s with
  | some d1 =>
    rw [hdash] at hv
    injection hv with hv
    subst hv
    have hs := parseSep_roundtrip '-' s d1 hascii hdash
    cases g with
    | dashed => simpa [formatDate] using hs
    | dotted =>
      rw [← hs] at hm
      simp [matchesGrammar, matchesSep, pad4, pad2] at hm
    | underscored =>
      rw [← hs] at hm
      simp [matchesGrammar, matchesSep, pad4, pad2] at hm
    | compact =>
      rw [← hs] at hm
      simp [matchesGrammar, matchesCompact, pad4, pad2] at hm
  | none =>
    rw [hdash] at hv
    cases hdot : parseSep '.' s with
    | some d1 =>
      rw [hdot] at hv
      injection hv with hv
      subst hv
      have hs := parseSep_roundtrip '.' s d1 hascii hdot
      cases g with
      | dotted => simpa [formatDate] using hs
      | dashed =>
        rw [← hs] at hm
        simp [matchesGrammar, matchesSep, pad4, pad2] at hm
      | underscored =>
        rw [← hs] at hm
        simp [matchesGrammar, matchesSep, pad4, pad2] at hm
      | compact =>
        rw [← hs] at hm
        simp [matchesGrammar, matchesCompact, pad4, pad2] at hm
    | none =>
      rw [hdot] at hv
      cases hund : parseSep '_' s with
      | some d1 =>
        rw [hund] at hv
        injection hv with hv
        subst hv
        have hs := parseSep_roundtrip '_' s d1 hascii hund
        cases g with
        | underscored => simpa [formatDate] using hs
        | dashed =>
          rw [← hs] at hm
          simp [matchesGrammar, matchesSep, pad4, pad2] at hm
        | dotted =>
          rw [← hs] at hm
          simp [matchesGrammar, matchesSep, pad4, pad2] at hm
        | compact =>
          rw [← hs] at hm
          simp [matchesGrammar, matchesCompact, pad4, pad2] at hm
      | none =>
        rw [hund] at hv
        have hs := parseCompact_roundtrip s d hascii hv
        cases g with
        | compact => simpa [formatDate] using hs
        | dashed =>
          rw [← hs] at hm
          simp [matchesGrammar, matchesSep, pad4, pad2] at hm
        | dotted =>
          rw [← hs] at hm
          simp [matchesGrammar, matchesSep, pad4, pad2] at hm
        | underscored =>
          rw [← hs] at hm
          simp [matchesGrammar, matchesSep, pad4, pad2] at hm

/-- Witness for the amended round trip at a concrete ASCII folder
name. -/
theorem date_roundtrip_witness :
    formatDate Grammar.dashed ⟨2024, 1, 15⟩ = ("2024-01-15").data :=
  date_roundtrip ("2024-01-15").data ⟨2024, 1, 15⟩ Grammar.dashed
    (by decide) (by decide) (by decide)

/-- C6 counterexample: the program accepts the folder name with
Arabic-Indic year digits under the dashed grammar — the regex class
\d and strptime admit every Unicode decimal digit — yet reformatting
the parsed date yields the ASCII rendering, which differs from the
original folder name. -/
theorem unicode_digit_no_roundtrip :
    validate_date_folder_name ("٢٠٢٤-01-15").data = some ⟨2024, 1, 15⟩ ∧
    matchesGrammar Grammar.dashed ("٢٠٢٤-01-15").data = true ∧
    formatDate Grammar.dashed ⟨2024, 1, 15⟩ ≠ ("٢٠٢٤-01-15").data := by
  exact ⟨by decide, by decide, by decide⟩

/-! ## Sanitizer lemmas -/

lemma map_eq_self_of (f : Char → Char) (l : List Char) (h : ∀ a ∈ l, f a = a) :
    l.map f = l := by
  induction l with
  | nil => rfl
  | cons a t ih =>
    rw [List.map_cons, h a (List.mem_cons_self a t),
      ih (fun b hb => h b (List.mem_cons_of_mem a hb))]

lemma repl1_not_dotEll (c : Char) : isDotEll (repl1 c) = false := by
  unfold repl1
  split_ifs with h
  · decide
  · simpa using h

lemma repl2_not_reserved (c : Char) : isReservedChar (repl2 c) = false := by
  unfold repl2
  split_ifs with h
  · decide
  · simpa using h

lemma repl2_not_dotEll (c : Char) (h : isDotEll c = false) :
    isDotEll (repl2 c) = false := by
  unfold repl2
  split_ifs with h2
  · decide
  · exact h

lemma collapseUnd_subset (l : List Char) : ∀ c ∈ collapseUnd l, c ∈ l := by
  induction l with
  | nil => intro c hc; simp [collapseUnd] at hc
  | cons a t ih =>
    cases t with
    | nil => intro c hc; simpa [collapseUnd] using hc
    | cons b r =>
      intro c hc
      unfold collapseUnd at hc
      split_ifs at hc with h
      · exact List.mem_cons_of_mem a (ih c hc)
      · rcases List.mem_cons.mp hc with h1 | h1
        · exact h1 ▸ List.mem_cons_self a _
        · exact List.mem_cons_of_mem a (ih c h1)

lemma collapseUnd_head (b : Char) (rest : List Char) :
    (collapseUnd (b :: rest)).head? = some b := by
  induction rest generalizing b with
  | nil => rfl
  | cons c r ih =>
    unfold collapseUnd
    split_ifs with h
    · rw [ih c, h.1, h.2]
    · rfl

lemma collapseUnd_chain (l : List Char) : List.Chain' Rund (collapseUnd l) := by
  induction l with
  | nil => simp [collapseUnd]
  | cons a t ih =>
    cases t with
    | nil => simp [collapseUnd]
    | cons b r =>
      unfold collapseUnd
      split_ifs with h
      · exact ih
      · rw [List.chain'_cons']
        refine ⟨?_, ih⟩
        intro y hy
        rw [collapseUnd_head b r] at hy
        injection hy with hy
        subst hy
        exact h

lemma collapseUnd_eq_self (l : List Char) (hc : List.Chain' Rund l) :
    collapseUnd l = l := by
  induction l with
  | nil => rfl
  | cons a t ih =>
    cases t with
    | nil => rfl
    | cons b r =>
      rw [List.chain'_cons'] at hc
      unfold collapseUnd
      split_ifs with h
      · exact absurd h (hc.1 b rfl)
      · rw [ih hc.2]

lemma dropWhile_head_false (p : Char → Bool) (l : List Char) (c : Char)
    (h : (l.dropWhile p).head? = some c) : p c = false := by
  induction l with
  | nil => simp [List.dropWhile] at h
  | cons a t ih =>
    by_cases hp : p a
    · rw [List.dropWhile_cons_of_pos hp] at h; exact ih h
    · rw [List.dropWhile_cons_of_neg hp] at h
      injection h with h
      subst h
      simpa using hp

lemma dropWhile_eq_self (p : Char → Bool) (l : List Char)
    (h : ∀ c, l.head? = some c → p c = false) : l.dropWhile p = l := by
  cases l with
  | nil => rfl
  | cons a t => exact List.dropWhile_cons_of_neg (by simp [h a rfl])

lemma stripEnds_front (l : List Char) :
    stripEnds l <+: l.dropWhile isStripC := by
  unfold stripEnds
  have h2 : (l.dropWhile isStripC).reverse.dropWhile isStripC <:+
      (l.dropWhile isStripC).reverse := List.dropWhile_suffix _
  have h3 := List.reverse_prefix.mpr h2
  rwa [List.reverse_reverse] at h3

lemma stripEnds_within (l : List Char) : stripEnds l <:+: l :=
  List.IsInfix.trans (List.IsPrefix.isInfix (stripEnds_front l))
    (List.IsSuffix.isInfix (List.dropWhile_suffix _))

lemma stripEnds_head (l : List Char) (c : Char)
    (h : (stripEnds l).head? = some c) : isStripC c = false := by
  obtain ⟨w, hw⟩ := stripEnds_front l
  cases hse : stripEnds l with
  | nil => rw [hse] at h; cases h
  | cons c0 t =>
    rw [hse] at h
    injection h with h
    subst h
    apply dropWhile_head_false isStripC l c0
    rw [← hw, hse]
    rfl

lemma stripEnds_last (l : List Char) (c : Char)
    (h : (stripEnds l).getLast? = some c) : isStripC c = false := by
  unfold stripEnds at h
  rw [List.getLast?_reverse] at h
  exact dropWhile_head_false _ _ _ h

lemma stripEnds_eq_self (l : List Char)
    (hh : ∀ c, l.head? = some c → isStripC c = false)
    (hl : ∀ c, l.getLast? = some c → isStripC c = false) :
    stripEnds l = l := by
  unfold stripEnds
  rw [dropWhile_eq_self _ _ hh]
  have h2 : l.reverse.dropWhile isStripC = l.reverse := by
    apply dropWhile_eq_self
    intro c hc
    rw [List.head?_reverse] at hc
    exact hl c hc
  rw [h2, List.reverse_reverse]

lemma sanitizeL_props (s : List Char) :
    (∀ c ∈ sanitizeL s, isDotEll c = false ∧ isReservedChar c = false) ∧
    List.Chain' Rund (sanitizeL s) ∧
    (∀ c, (sanitizeL s).head? = some c → isStripC c = false) ∧
    (∀ c, (sanitizeL s).getLast? = some c → isStripC c = false) ∧
    sanitizeL s ≠ [] := by
  unfold sanitizeL
  split_ifs with he
  · refine ⟨by decide, ?_, ?_, ?_, by decide⟩
    · refine List.chain'_cons.mpr ⟨by decide, ?_⟩
      refine List.chain'_cons.mpr ⟨by decide, ?_⟩
      refine List.chain'_cons.mpr ⟨by decide, ?_⟩
      refine List.chain'_cons.mpr ⟨by decide, ?_⟩
      exact List.chain'_singleton 't'
    · intro c hc
      injection hc with hc
      subst hc
      decide
    · intro c hc
      rw [show (['S', 'h', 'e', 'e', 't'] : List Char).getLast? = some 't' from rfl] at hc
      injection hc with hc
      subst hc
      decide
  · refine ⟨?_, ?_, ?_, ?_, he⟩
    · intro c hc
      have hc2 := List.IsInfix.subset ( stripEnds_within _) hc
      have hc3 := collapseUnd_subset _ c hc2
      obtain ⟨a, ha, rfl⟩ := List.mem_map.mp hc3
      obtain ⟨b, hb, rfl⟩ := List.mem_map.mp ha
      exact ⟨repl2_not_dotEll _ (repl1_not_dotEll b), repl2_not_reserved _⟩
    · exact List.Chain'.infix (collapseUnd_chain _) ( stripEnds_within _)
    · exact stripEnds_head _
    · exact stripEnds_last _

lemma sanitizeL_idem (s : List Char) : sanitizeL (sanitizeL s) = sanitizeL s := by
  obtain ⟨hmem, hchain, hhead, hlast, hne⟩ := sanitizeL_props s
  set y := sanitizeL s with hy
  have h1 : y.map repl1 = y :=
    map_eq_self_of _ _ (fun a ha => by simp [repl1, (hmem a ha).1])
  have h2 : y.map repl2 = y :=
    map_eq_self_of _ _ (fun a ha => by simp [repl2, (hmem a ha).2])
  have h3 : collapseUnd y = y := collapseUnd_eq_self y hchain
  have h4 : stripEnds y = y := stripEnds_eq_self y hhead hlast
  unfold sanitizeL
  rw [h1, h2, h3, h4]
  simp [hne]

/-- C4: sanitize_sheet_name is idempotent; its output never contains a
reserved filesystem character, never contains a run of two or more
consecutive underscores, and is never the empty string. -/
theorem sanitize_idempotent_safe (x : String) :
    sanitize_sheet_name (sanitize_sheet_name x) = sanitize_sheet_name x ∧
    (∀ c ∈ (sanitize_sheet_name x).data, isReservedChar c = false) ∧
    ¬ List.IsInfix ['_', '_'] (sanitize_sheet_name x).data ∧
    sanitize_sheet_name x ≠ "" := by
  obtain ⟨hmem, hchain, hhead, hlast, hne⟩ := sanitizeL_props x.data
  refine ⟨congrArg String.mk (sanitizeL_idem x.data), ?_, ?_, ?_⟩
  · intro c hc
    exact (hmem c hc).2
  · intro hinf
    have h2 := List.Chain'.infix hchain hinf
    rw [List.chain'_pair] at h2
    exact h2 ⟨rfl, rfl⟩
  · intro h
    exact hne (congrArg String.data h)

/-- Witness for the sanitizer properties at a concrete sheet name. -/
theorem sanitize_idempotent_safe_witness :
    sanitize_sheet_name (sanitize_sheet_name "a..b/c") = sanitize_sheet_name "a..b/c" ∧
    isReservedChar 'a' = false :=
  ⟨(sanitize_idempotent_safe "a..b/c").1,
   (sanitize_idempotent_safe "a..b/c").2.1 'a' (by decide)⟩

/-! ## Scanner lemmas -/

lemma endsWithL_iff (l suffix : List Char) :
    endsWithL l suffix = true ↔ suffix <:+ l := by
  unfold endsWithL
  rw [decide_eq_true_iff]
  constructor
  · intro h
    refine ⟨l.take (l.length - suffix.length), ?_⟩
    have h2 := List.take_append_drop (l.length - suffix.length) l
    rw [h] at h2
    exact h2
  · rintro ⟨w, rfl⟩
    rw [List.length_append]
    have h2 : w.length + suffix.length - suffix.length = w.length := by omega
    rw [h2, List.drop_left]

lemma foldl_scanStep_unrecognized (root : String) (items : List Entry)
    (h : ∀ e ∈ items, ∀ name files, e = Entry.dir name files →
      validate_date_folder_name name.data = none) :
    ∀ acc, items.foldl (scanStep root) acc = acc := by
  induction items with
  | nil => intro acc; rfl
  | cons e rest ih =>
    intro acc
    have hstep : scanStep root acc e = acc := by
      cases e with
      | file n => rfl
      | dir name files =>
        have h2 := h _ (List.mem_cons_self _ _) name files rfl
        simp [scanStep, h2]
    rw [List.foldl_cons, hstep]
    exact ih (fun e2 he2 => h e2 (List.mem_cons_of_mem _ he2)) acc

/-- C8: the scan fails (returns none, the NotFound signal) exactly when
the root does not exist, and an existing root with zero recognized date
partitions yields the valid empty result — empty partition list, empty
file list, zero totals — which is distinct from the NotFound failure. -/
theorem scan_notfound_iff_empty (root : String) (entries : Option (List Entry)) :
    (scan_fpk_structure root entries = none ↔ entries = none) ∧
    (∀ items, entries = some items →
      (∀ e ∈ items, ∀ name files, e = Entry.dir name files →
        validate_date_folder_name name.data = none) →
      scan_fpk_structure root entries = some ⟨[], [], 0, 0⟩) ∧
    (some (⟨[], [], 0, 0⟩ : ScanResult) ≠ (none : Option ScanResult)) := by
  refine ⟨?_, ?_, by simp⟩
  · cases entries with
    | none => simp [scan_fpk_structure]
    | some items => simp [scan_fpk_structure]
  · intro items he hnone
    subst he
    simp only [scan_fpk_structure]
    rw [foldl_scanStep_unrecognized root items hnone ([], [], 0)]
    rfl

/-- Witness for the scan theorem at a concrete root listing. -/
theorem scan_notfound_iff_empty_witness :
    scan_fpk_structure "r"
      (some [Entry.dir "notadate" ["a.xlsx"], Entry.file "x.txt"]) =
      some ⟨[], [], 0, 0⟩ := by
  refine (scan_notfound_iff_empty "r" _).2.1 _ rfl ?_
  intro e he name files hef
  rcases List.mem_cons.mp he with h1 | h1
  · subst h1
    cases hef
    decide
  · rcases List.mem_cons.mp h1 with h2 | h2
    · subst h2
      cases hef
    · simp at h2

/-- C7 counterexample: a recognized partition containing only
REPORT.XLSX is scanned with zero enumerated files and file count 0,
because the source globs the lowercase patterns only and POSIX glob
matching is case-sensitive; the claim would include the file. -/
theorem scan_uppercase_excluded :
    scan_fpk_structure "r" (some [Entry.dir "2024-01-15" ["REPORT.XLSX"]]) =
      some ⟨[⟨"2024-01-15", "r/2024-01-15", ⟨2024, 1, 15⟩, 0⟩], [], 0, 1⟩ := by
  decide

/-- C7 amended: for a recognized date partition the scanner enumerates
exactly the directly contained files whose name ends in the lowercase
extension .xlsx or .xls and is not dot-hidden, non-recursively and
case-sensitively. -/
theorem scan_files_lowercase_ext (root name : String) (files : List String)
    (d : Date) (hv : validate_date_folder_name name.data = some d) :
    scan_fpk_structure root (some [Entry.dir name files]) =
      some ⟨[⟨name, root ++ "/" ++ name, d,
          (files.filter matchXlsxName).length + (files.filter matchXlsName).length⟩],
        (files.filter matchXlsxName ++ files.filter matchXlsName).map
          (fun f => ⟨root ++ "/" ++ name ++ "/" ++ f, d, name⟩),
        (files.filter matchXlsxName).length + (files.filter matchXlsName).length,
        1⟩ ∧
      (∀ f, f ∈ files.filter matchXlsxName ++ files.filter matchXlsName ↔
        f ∈ files ∧ f.data.head? ≠ some '.' ∧
          ((".xlsx").data <:+ f.data ∨ (".xls").data <:+ f.data)) := by
  constructor
  · have hstep : scanStep root ([], [], 0) (Entry.dir name files) =
        ([⟨name, root ++ "/" ++ name, d,
            (files.filter matchXlsxName).length + (files.filter matchXlsName).length⟩],
         (files.filter matchXlsxName ++ files.filter matchXlsName).map
           (fun f => ⟨root ++ "/" ++ name ++ "/" ++ f, d, name⟩),
         (files.filter matchXlsxName).length + (files.filter matchXlsName).length) := by
      simp [scanStep, hv]
    simp only [scan_fpk_structure, List.foldl]
    rw [hstep]
    rfl
  · intro f
    simp only [List.mem_append, List.mem_filter, matchXlsxName, matchXlsName,
      Bool.and_eq_true, Bool.not_eq_true', endsWithL_iff, hiddenName,
      decide_eq_false_iff_not]
    tauto

/-- Witness for the amended scanner enumeration at a concrete listing. -/
theorem scan_files_lowercase_ext_witness :
    scan_fpk_structure "r" (some [Entry.dir "2024-01-15"
        ["a.xlsx", "REPORT.XLSX", "b.xls"]]) =
      some ⟨[⟨"2024-01-15", "r/2024-01-15", ⟨2024, 1, 15⟩, 2⟩],
        [⟨"r/2024-01-15/a.xlsx", ⟨2024, 1, 15⟩, "2024-01-15"⟩,
         ⟨"r/2024-01-15/b.xls", ⟨2024, 1, 15⟩, "2024-01-15"⟩], 2, 1⟩ := by
  have h := (scan_files_lowercase_ext "r" "2024-01-15"
    ["a.xlsx", "REPORT.XLSX", "b.xls"] ⟨2024, 1, 15⟩ (by decide)).1
  rw [h]
  decide

/-! ## Sheet pipeline lemmas -/

lemma le_gridWidth (g : Grid) (r : List Cell) (hr : r ∈ g) :
    r.length ≤ gridWidth g := by
  induction g with
  | nil => cases hr
  | cons a t ih =>
    unfold gridWidth
    simp only [List.map_cons, List.foldr_cons]
    rcases List.mem_cons.mp hr with h | h
    · subst h
      exact le_max_left _ _
    · exact le_trans (ih h) (le_max_right _ _)

lemma foldr_max_const (w : Nat) (t : List (List Cell)) (h : t ≠ []) :
    (t.map (fun _ => w)).foldr max 0 = w := by
  induction t with
  | nil => exact absurd rfl h
  | cons a r ih =>
    cases r with
    | nil => simp
    | cons b r2 =>
      simp only [List.map_cons, List.foldr_cons] at ih ⊢
      rw [ih (by simp), Nat.max_self]

lemma gridWidth_readGrid (g : Grid) (hne : g ≠ []) :
    gridWidth (readGrid g) = gridWidth g := by
  have hlen : ∀ r ∈ g, (padRow (gridWidth g) r).length = gridWidth g := by
    intro r hr
    unfold padRow
    rw [List.length_append, List.length_replicate]
    have h2 := le_gridWidth g r hr
    omega
  calc gridWidth (readGrid g)
      = ((g.map (padRow (gridWidth g))).map List.length).foldr max 0 := rfl
    _ = (g.map (fun _ => gridWidth g)).foldr max 0 := by
        rw [List.map_map]
        congr 1
        exact List.map_congr_left hlen
    _ = gridWidth g := foldr_max_const _ g hne

lemma not_dfEmpty_readGrid (g : Grid) (h2 : 2 ≤ g.length) (hw : 0 < gridWidth g) :
    ¬ dfEmpty (readGrid g) := by
  intro h
  have hne : g ≠ [] := by
    intro h0
    subst h0
    simp at h2
  rcases h with h | h
  · exact hne (List.map_eq_nil_iff.mp h)
  · rw [gridWidth_readGrid g hne] at h
    omega

lemma headerIdx_eq_sub_one (len : Nat) (h2 : 2 ≤ len) (h5 : len ≤ 5) :
    headerIdx len = len - 1 := by
  unfold headerIdx
  split_ifs <;> omega

lemma keptRows_eq_nil (g : Grid) (h2 : 2 ≤ g.length) (h5 : g.length ≤ 5) :
    keptRows g = [] := by
  simp only [keptRows]
  rw [headerIdx_eq_sub_one g.length h2 h5]
  have h3 : ¬ (g.length - 1 + 1 < g.length) := by omega
  simp [h3]

lemma short_not_ready (g : Grid) (d : Date) (n b : String) (h5 : g.length ≤ 5)
    (t : NormalizedTable) (san p : String) :
    sheet_pure g d n b ≠ .ready t san p := by
  intro hp
  unfold sheet_pure at hp
  by_cases hc1 : dfEmpty (readGrid g) ∨ g.length < 2
  · rw [if_pos hc1] at hp
    cases hp
  · rw [if_neg hc1] at hp
    push_neg at hc1
    have h2 : 2 ≤ g.length := by omega
    rw [keptRows_eq_nil g h2 h5] at hp
    simp at hp

/-- C9: a sheet whose raw grid has between 2 and 5 rows — and, as for
any pandas frame with rows, at least one column — is always skipped
with reason "No data rows after processing" and never succeeds; a
Success record requires at least 6 raw rows. -/
theorem short_sheet_skipped :
    (∀ (g : Grid) (d : Date) (n b : String) (fs : FS),
      2 ≤ g.length → g.length ≤ 5 → 0 < gridWidth g →
      (process_sheet g d n b fs).1 =
        ⟨.skipped, "", some "No data rows after processing", n, none⟩) ∧
    (∀ (g : Grid) (d : Date) (n b : String) (fs : FS),
      (process_sheet g d n b fs).1.status = .success → 6 ≤ g.length) := by
  constructor
  · intro g d n b fs h2 h5 hw
    have hp : sheet_pure g d n b = .skipNoData := by
      unfold sheet_pure
      have hc1 : ¬ (dfEmpty (readGrid g) ∨ g.length < 2) := by
        push_neg
        exact ⟨not_dfEmpty_readGrid g h2 hw, by omega⟩
      rw [if_neg hc1]
      simp [keptRows_eq_nil g h2 h5]
    unfold process_sheet
    rw [hp]
  · intro g d n b fs hs
    by_contra hlt
    push_neg at hlt
    have h5 : g.length ≤ 5 := by omega
    unfold process_sheet at hs
    rcases hp : sheet_pure g d n b with _ | _ | ⟨t, san, p⟩
    · rw [hp] at hs
      simp at hs
    · rw [hp] at hs
      simp at hs
    · exact short_not_ready g d n b h5 t san p hp

/-- Witness for the short-sheet theorem at a concrete 3-row sheet. -/
theorem short_sheet_skipped_witness :
    (process_sheet [[Cell.str "x"], [Cell.str "y"], [Cell.str "z"]]
        ⟨2024, 1, 15⟩ "S" "out" []).1 =
      ⟨.skipped, "", some "No data rows after processing", "S", none⟩ :=
  short_sheet_skipped.1 [[Cell.str "x"], [Cell.str "y"], [Cell.str "z"]]
    ⟨2024, 1, 15⟩ "S" "out" [] (by decide) (by decide) (by decide)

/-! ## Date column placement (C5) and the Q1 Report scenario (C3) -/

lemma sheet_pure_ready (g : Grid) (d : Date) (n b : String)
    (t : NormalizedTable) (san p : String)
    (h : sheet_pure g d n b = .ready t san p) :
    san = sanitize_sheet_name n ∧ p = output_path b n d ∧
    (Cell.str "Date" ∈ promotedCols g → t = ⟨promotedCols g, keptRows g⟩) ∧
    (Cell.str "Date" ∉ promotedCols g →
      t = ⟨Cell.str "Date" :: promotedCols g,
           (keptRows g).map (fun r => Cell.str (isoDate d) :: r)⟩) := by
  simp only [sheet_pure] at h
  split_ifs at h with hc1 hc2 hdate
  · cases h
    exact ⟨rfl, rfl, fun _ => rfl, fun hc => absurd hdate hc⟩
  · cases h
    exact ⟨rfl, rfl, fun hc => absurd hc hdate, fun _ => rfl⟩

/-- C5 (amended): every table that reaches a Success write contains a
column named Date; when the promoted header has no Date column, a Date
column holding the partition date in ISO format is prepended, becomes
the first column, and every row carries the date value; when the header
already names a Date column the table is left untouched, so the first
column then need not be Date. -/
theorem date_column_spec (g : Grid) (d : Date) (n b : String)
    (t : NormalizedTable) (san p : String)
    (h : sheet_pure g d n b = .ready t san p) :
    Cell.str "Date" ∈ t.cols ∧
    (Cell.str "Date" ∈ promotedCols g →
      t.cols = promotedCols g ∧ t.rows = keptRows g) ∧
    (Cell.str "Date" ∉ promotedCols g →
      t.cols = Cell.str "Date" :: promotedCols g ∧
      t.cols.head? = some (Cell.str "Date") ∧
      ∀ r ∈ t.rows, r.head? = some (Cell.str (isoDate d))) := by
  obtain ⟨hsan, hp2, hin, hout⟩ := sheet_pure_ready g d n b t san p h
  by_cases hdate : Cell.str "Date" ∈ promotedCols g
  · have ht := hin hdate
    subst ht
    exact ⟨hdate, fun _ => ⟨rfl, rfl⟩, fun hc => absurd hdate hc⟩
  · have ht := hout hdate
    subst ht
    refine ⟨List.mem_cons_self _ _, fun hc => absurd hc hdate,
      fun _ => ⟨rfl, rfl, ?_⟩⟩
    intro r hr
    obtain ⟨r0, hr0, rfl⟩ := List.mem_map.mp hr
    rfl

/-- C5 counterexample: a sheet whose promoted header names a Date
column in the second position reaches a Success write while its first
column is named A, so the first emitted column is not always Date. -/
theorem date_not_first_column :
    sheet_pure gridC5 ⟨2020, 5, 5⟩ "S" "out" =
      SheetPure.ready ⟨[Cell.str "A", Cell.str "Date"],
        [[Cell.str "v", Cell.str "2020-05-05"]]⟩ "S" "out/S/S 20200505.csv" ∧
    (process_sheet gridC5 ⟨2020, 5, 5⟩ "S" "out" []).1.status = Status.success ∧
    Cell.str "A" ≠ Cell.str "Date" := by
  exact ⟨by decide, by decide, by decide⟩

/-- Witness for the date-column specification at the scenario sheet. -/
theorem date_column_spec_witness :
    Cell.str "Date" ∈ tableC3.cols ∧
    tableC3.cols.head? = some (Cell.str "Date") := by
  have h := date_column_spec gridC3 ⟨2024, 1, 15⟩ "Q1 Report" "out" tableC3
    (sanitize_sheet_name "Q1 Report") (output_path "out" "Q1 Report" ⟨2024, 1, 15⟩)
    (by decide)
  exact ⟨h.1, (h.2.2 (by decide)).2.1⟩

/-- C3 counterexample: the sanitizer replaces nothing in Q1 Report —
the space survives — so the output path component is Q1 Report, not the
Q1_Report the claim instantiates, and the single Success record of the
scenario carries the space-containing path. -/
theorem q1_report_path_counterexample :
    sanitize_sheet_name "Q1 Report" = "Q1 Report" ∧
    output_path "out" "Q1 Report" ⟨2024, 1, 15⟩ =
      "out/Q1 Report/Q1 Report 20240115.csv" ∧
    "out/Q1 Report/Q1 Report 20240115.csv" ≠
      "out/Q1_Report/Q1_Report 20240115.csv" ∧
    (process_excel_file (Workbook.sheets [("Q1 Report", SheetData.ok gridC3)])
        ⟨2024, 1, 15⟩ "src" "out" []).1 =
      [⟨.success, "out/Q1 Report/Q1 Report 20240115.csv", none,
        "Q1 Report", some 1⟩] := by
  exact ⟨by decide, by decide, by decide, by decide⟩

/-- C3 (amended): for partition folder 2024-01-15 and the 6-row Q1
Report sheet with header content at row index 4 and a fully blank first
column, a run against an output root with a fresh destination yields
exactly one Success record at outputRoot/Q1 Report/Q1 Report
20240115.csv — the path formula with the space-preserving sanitizer —
the written table carries 2024-01-15 in the Date column of every row,
and rowsWritten equals the rows after the header row minus the fully
blank rows. -/
theorem q1_report_scenario (base : String) (fs : FS)
    (hfresh : fsLookup fs (output_path base "Q1 Report" ⟨2024, 1, 15⟩) = none) :
    validate_date_folder_name ("2024-01-15").data = some ⟨2024, 1, 15⟩ ∧
    (process_excel_file (Workbook.sheets [("Q1 Report", SheetData.ok gridC3)])
        ⟨2024, 1, 15⟩ "src" base fs).1 =
      [⟨.success, output_path base "Q1 Report" ⟨2024, 1, 15⟩, none,
        "Q1 Report", some 1⟩] ∧
    output_path base "Q1 Report" ⟨2024, 1, 15⟩ =
      base ++ "/Q1 Report/Q1 Report 20240115.csv" ∧
    fsLookup (process_excel_file (Workbook.sheets
        [("Q1 Report", SheetData.ok gridC3)]) ⟨2024, 1, 15⟩ "src" base fs).2
      (output_path base "Q1 Report" ⟨2024, 1, 15⟩) = some tableC3 ∧
    (∀ r ∈ tableC3.rows, r.head? = some (Cell.str "2024-01-15")) ∧
    tableC3.rows.length = 1 ∧
    ((dropFirstCol (readGrid gridC3)).drop (headerIdx gridC3.length + 1)).length -
      (((dropFirstCol (readGrid gridC3)).drop
        (headerIdx gridC3.length + 1)).filter allBlankRow).length = 1 := by
  have hsp : sheet_pure gridC3 ⟨2024, 1, 15⟩ "Q1 Report" base =
      SheetPure.ready tableC3 (sanitize_sheet_name "Q1 Report")
        (output_path base "Q1 Report" ⟨2024, 1, 15⟩) := rfl
  have hps : process_sheet gridC3 ⟨2024, 1, 15⟩ "Q1 Report" base fs =
      (⟨.success, output_path base "Q1 Report" ⟨2024, 1, 15⟩, none,
        "Q1 Report", some tableC3.rows.length⟩,
       (output_path base "Q1 Report" ⟨2024, 1, 15⟩, tableC3) :: fs) := by
    unfold process_sheet
    rw [hsp]
    simp [hfresh]
  have hpf : process_excel_file (Workbook.sheets
      [("Q1 Report", SheetData.ok gridC3)]) ⟨2024, 1, 15⟩ "src" base fs =
      ([⟨.success, output_path base "Q1 Report" ⟨2024, 1, 15⟩, none,
        "Q1 Report", some tableC3.rows.length⟩],
       (output_path base "Q1 Report" ⟨2024, 1, 15⟩, tableC3) :: fs) := by
    unfold process_excel_file process_sheets sheet_step
    simp only [hps]
    unfold process_sheets
    rfl
  refine ⟨by decide, ?_, ?_, ?_, by decide, by decide, by decide⟩
  · rw [hpf]
    rfl
  · apply String.ext
    simp only [output_path, sanitize_sheet_name, String.data_append, List.append_assoc]
    congr 1
  · rw [hpf]
    unfold fsLookup
    rw [List.find?_cons_of_pos _ (by simp)]
    rfl

/-- Witness for the amended scenario at a concrete output root. -/
theorem q1_report_scenario_witness :
    (process_excel_file (Workbook.sheets [("Q1 Report", SheetData.ok gridC3)])
        ⟨2024, 1, 15⟩ "src" "out" []).1 =
      [⟨.success, output_path "out" "Q1 Report" ⟨2024, 1, 15⟩, none,
        "Q1 Report", some 1⟩] :=
  (q1_report_scenario "out" [] rfl).2.1

/-! ## Per-file record accounting (C1, C10) -/

lemma process_sheets_length (d : Date) (src base : String) :
    ∀ (l : List (String × SheetData)) (fs : FS),
      (process_sheets d src base l fs).1.length = l.length := by
  intro l
  induction l with
  | nil => intro fs; rfl
  | cons nd rest ih =>
    intro fs
    unfold process_sheets
    simp [ih]

lemma process_sheets_get (d : Date) (src base : String) :
    ∀ (l : List (String × SheetData)) (fs : FS) (i : Nat) (nd : String × SheetData),
      l[i]? = some nd →
      ∃ fsMid, (process_sheets d src base l fs).1[i]? =
        some (sheet_step d src base nd fsMid).1 := by
  intro l
  induction l with
  | nil => intro fs i nd h; simp at h
  | cons nd0 rest ih =>
    intro fs i nd h
    cases i with
    | zero =>
      simp only [List.getElem?_cons_zero] at h
      injection h with h
      subst h
      exact ⟨fs, by simp [process_sheets]⟩
    | succ j =>
      simp only [List.getElem?_cons_succ] at h
      obtain ⟨fsMid, hm⟩ := ih (sheet_step d src base nd0 fs).2 j nd h
      exact ⟨fsMid, by simpa [process_sheets] using hm⟩

lemma sheet_step_sheet_name (d : Date) (src base : String)
    (nd : String × SheetData) (fs : FS) :
    (sheet_step d src base nd fs).1.sheet_name = nd.1 := by
  obtain ⟨n, sd⟩ := nd
  cases sd with
  | raises msg => rfl
  | ok g =>
    show (process_sheet g d n base fs).1.sheet_name = n
    unfold process_sheet
    rcases hsp : sheet_pure g d n base with _ | _ | ⟨t, san, p⟩
    · rfl
    · rfl
    · by_cases hex : (fsLookup fs p).isSome
      · dsimp only
        rw [if_pos hex]
      · dsimp only
        rw [if_neg hex]

/-- The five possible records one sheet iteration can emit. -/
lemma sheet_step_cases (d : Date) (src base : String)
    (nd : String × SheetData) (fs : FS) :
    (sheet_step d src base nd fs).1 =
      ⟨.skipped, "", some "Sheet is empty or has insufficient data", nd.1, none⟩ ∨
    (sheet_step d src base nd fs).1 =
      ⟨.skipped, "", some "No data rows after processing", nd.1, none⟩ ∨
    (sheet_step d src base nd fs).1 =
      ⟨.skipped, output_path base nd.1 d, some "File already exists", nd.1, none⟩ ∨
    (∃ k, (sheet_step d src base nd fs).1 =
      ⟨.success, output_path base nd.1 d, none, nd.1, some k⟩) ∨
    (∃ msg, (sheet_step d src base nd fs).1 =
      ⟨.error, src, some msg, nd.1, none⟩) := by
  obtain ⟨n, sd⟩ := nd
  cases sd with
  | raises msg =>
    exact Or.inr (Or.inr (Or.inr (Or.inr
      ⟨"Sheet processing error: " ++ msg, rfl⟩)))
  | ok g =>
    have hstep : sheet_step d src base (n, SheetData.ok g) fs =
        process_sheet g d n base fs := rfl
    rw [hstep]
    unfold process_sheet
    rcases hsp : sheet_pure g d n base with _ | _ | ⟨t, san, p⟩
    · exact Or.inl rfl
    · exact Or.inr (Or.inl rfl)
    · obtain ⟨hsan, hp2, h3, h4⟩ := sheet_pure_ready g d n base t san p hsp
      subst hp2
      by_cases hex : (fsLookup fs (output_path base n d)).isSome
      · dsimp only
        rw [if_pos hex]
        exact Or.inr (Or.inr (Or.inl rfl))
      · dsimp only
        rw [if_neg hex]
        exact Or.inr (Or.inr (Or.inr (Or.inl ⟨t.rows.length, rfl⟩)))

/-- C1: the outcome records exactly partition the attempted (file,
sheet) pairs: an unopenable workbook yields exactly one Error record
with sheet name unknown; an opened workbook yields exactly one record
per sheet, in order, each carrying the name of that sheet and a status among
Success, Skipped and Error; a sheet that raises yields exactly one
Error record for itself and the sibling sheets keep their own records. -/
theorem outcome_partition (wb : Workbook) (d : Date) (src base : String) (fs : FS) :
    (∀ msg, wb = .openFail msg →
      (process_excel_file wb d src base fs).1 =
        [⟨.error, src, some msg, "unknown", none⟩]) ∧
    (∀ (l : List (String × SheetData)), wb = .sheets l →
      (process_excel_file wb d src base fs).1.length = l.length ∧
      ∀ (i : Nat) (nd : String × SheetData), l[i]? = some nd →
        ∃ (r : Record), (process_excel_file wb d src base fs).1[i]? = some r ∧
          r.sheet_name = nd.1 ∧
          (r.status = .success ∨ r.status = .skipped ∨ r.status = .error) ∧
          ∀ msg, nd.2 = .raises msg →
            r = ⟨.error, src, some ("Sheet processing error: " ++ msg),
              nd.1, none⟩) := by
  constructor
  · intro msg hwb
    subst hwb
    rfl
  · intro l hwb
    subst hwb
    refine ⟨process_sheets_length d src base l fs, ?_⟩
    intro i nd hnd
    obtain ⟨fsMid, hm⟩ := process_sheets_get d src base l fs i nd hnd
    refine ⟨_, hm, sheet_step_sheet_name d src base nd fsMid, ?_, ?_⟩
    · cases hst : (sheet_step d src base nd fsMid).1.status
      · exact Or.inl rfl
      · exact Or.inr (Or.inl rfl)
      · exact Or.inr (Or.inr rfl)
    · intro msg hraise
      obtain ⟨n, sd⟩ := nd
      cases hraise
      rfl

/-- Witness for the partition theorem: a workbook with one raising and
one convertible sheet yields exactly two records. -/
theorem outcome_partition_witness :
    (process_excel_file (Workbook.sheets
        [("Bad", SheetData.raises "boom"), ("Q1 Report", SheetData.ok gridC3)])
      ⟨2024, 1, 15⟩ "src" "out" []).1.length = 2 :=
  ((outcome_partition (Workbook.sheets [("Bad", SheetData.raises "boom"),
    ("Q1 Report", SheetData.ok gridC3)]) ⟨2024, 1, 15⟩ "src" "out" []).2
    [("Bad", SheetData.raises "boom"), ("Q1 Report", SheetData.ok gridC3)] rfl).1

/-- C10: the meaning of the file-path field depends on the status: every
Error record (sheet-level or whole-file) carries the source workbook
path; a Skipped record carries the empty string for the two no-output
reasons and the output CSV path for the already-exists reason; a
Success record carries the output CSV path computed from the recorded
sheet name and the partition date. -/
theorem filepath_semantics (wb : Workbook) (d : Date) (src base : String) (fs : FS) :
    (∀ msg, wb = .openFail msg →
      (process_excel_file wb d src base fs).1 =
        [⟨.error, src, some msg, "unknown", none⟩]) ∧
    (∀ (l : List (String × SheetData)), wb = .sheets l →
      ∀ (i : Nat) (r : Record),
      (process_excel_file wb d src base fs).1[i]? = some r →
      (r.status = .error → r.file_path = src) ∧
      (r.status = .skipped →
        (r.reason = some "Sheet is empty or has insufficient data" ∨
         r.reason = some "No data rows after processing" ∨
         r.reason = some "File already exists")) ∧
      (r.status = .skipped →
        (r.reason = some "Sheet is empty or has insufficient data" ∨
         r.reason = some "No data rows after processing") → r.file_path = "") ∧
      (r.status = .skipped → r.reason = some "File already exists" →
        r.file_path = output_path base r.sheet_name d) ∧
      (r.status = .success →
        r.file_path = output_path base r.sheet_name d)) := by
  constructor
  · intro msg hwb
    subst hwb
    rfl
  · intro l hwb i r hr
    subst hwb
    have hr2 : (process_sheets d src base l fs).1[i]? = some r := hr
    rcases hnd : l[i]? with _ | nd
    · have hge := List.getElem?_eq_none_iff.mp hnd
      have hnone : (process_sheets d src base l fs).1[i]? = none := by
        rw [List.getElem?_eq_none_iff, process_sheets_length]
        exact hge
      rw [hnone] at hr2
      cases hr2
    · obtain ⟨fsMid, hm⟩ := process_sheets_get d src base l fs i nd hnd
      rw [hm] at hr2
      injection hr2 with hr2
      rcases sheet_step_cases d src base nd fsMid with
        h5 | h5 | h5 | ⟨k, h5⟩ | ⟨msg, h5⟩ <;>
        (rw [h5] at hr2; subst hr2; simp)

/-- Witness for the file-path semantics at a raising sheet. -/
theorem filepath_semantics_witness :
    (⟨Status.error, "src", some "Sheet processing error: boom", "Bad", none⟩ :
      Record).file_path = "src" :=
  (((filepath_semantics (Workbook.sheets [("Bad", SheetData.raises "boom")])
      ⟨2024, 1, 15⟩ "src" "out" []).2 [("Bad", SheetData.raises "boom")] rfl 0
      ⟨Status.error, "src", some "Sheet processing error: boom", "Bad", none⟩
      (by decide)).1 rfl)

/-! ## Idempotent re-run (C2) -/

lemma fsExtends_refl (fs : FS) : fsExtends fs fs := fun _ _ h => h

lemma fsExtends_trans {a b c : FS} (h1 : fsExtends a b) (h2 : fsExtends b c) :
    fsExtends a c := fun p t h => h2 p t (h1 p t h)

lemma fsLookup_cons_self (fs : FS) (p : String) (t : NormalizedTable) :
    fsLookup ((p, t) :: fs) p = some t := by
  unfold fsLookup
  rw [List.find?_cons_of_pos]
  · rfl
  · simp

lemma fsExtends_cons (fs : FS) (p : String) (t : NormalizedTable)
    (h : fsLookup fs p = none) : fsExtends fs ((p, t) :: fs) := by
  intro q u hq
  have hpq : p ≠ q := by
    intro he
    subst he
    rw [h] at hq
    cases hq
  unfold fsLookup at hq ⊢
  rw [List.find?_cons_of_neg]
  · exact hq
  · simp [hpq]

lemma process_sheet_skip1 (g : Grid) (d : Date) (n b : String) (fs : FS)
    (h : sheet_pure g d n b = .skipInsufficient) :
    process_sheet g d n b fs =
      (⟨.skipped, "", some "Sheet is empty or has insufficient data", n, none⟩,
       fs) := by
  unfold process_sheet
  rw [h]

lemma process_sheet_skip2 (g : Grid) (d : Date) (n b : String) (fs : FS)
    (h : sheet_pure g d n b = .skipNoData) :
    process_sheet g d n b fs =
      (⟨.skipped, "", some "No data rows after processing", n, none⟩, fs) := by
  unfold process_sheet
  rw [h]

lemma process_sheet_exists (g : Grid) (d : Date) (n b : String) (fs : FS)
    (t : NormalizedTable) (san p : String)
    (h : sheet_pure g d n b = .ready t san p)
    (hex : (fsLookup fs p).isSome = true) :
    process_sheet g d n b fs =
      (⟨.skipped, p, some "File already exists", n, none⟩, fs) := by
  unfold process_sheet
  rw [h]
  dsimp only
  rw [if_pos hex]

lemma process_sheet_fresh (g : Grid) (d : Date) (n b : String) (fs : FS)
    (t : NormalizedTable) (san p : String)
    (h : sheet_pure g d n b = .ready t san p)
    (hex : fsLookup fs p = none) :
    process_sheet g d n b fs =
      (⟨.success, p, none, n, some t.rows.length⟩, (p, t) :: fs) := by
  unfold process_sheet
  rw [h]
  dsimp only
  rw [if_neg (by simp [hex])]

lemma process_sheet_extends (g : Grid) (d : Date) (n b : String) (fs : FS) :
    fsExtends fs (process_sheet g d n b fs).2 := by
  rcases hsp : sheet_pure g d n b with _ | _ | ⟨t, san, p⟩
  · rw [process_sheet_skip1 g d n b fs hsp]
    exact fsExtends_refl fs
  · rw [process_sheet_skip2 g d n b fs hsp]
    exact fsExtends_refl fs
  · rcases hex : fsLookup fs p with _ | u
    · rw [process_sheet_fresh g d n b fs t san p hsp hex]
      exact fsExtends_cons fs p t hex
    · rw [process_sheet_exists g d n b fs t san p hsp (by rw [hex]; rfl)]
      exact fsExtends_refl fs

lemma sheet_step_extends (d : Date) (src base : String)
    (nd : String × SheetData) (fs : FS) :
    fsExtends fs (sheet_step d src base nd fs).2 := by
  obtain ⟨n, sd⟩ := nd
  cases sd with
  | raises msg => exact fsExtends_refl fs
  | ok g => exact process_sheet_extends g d n base fs

lemma process_sheets_extends (d : Date) (src base : String) :
    ∀ (l : List (String × SheetData)) (fs : FS),
      fsExtends fs (process_sheets d src base l fs).2 := by
  intro l
  induction l with
  | nil => intro fs; exact fsExtends_refl fs
  | cons nd rest ih =>
    intro fs
    exact fsExtends_trans (sheet_step_extends d src base nd fs)
      (ih (sheet_step d src base nd fs).2)

lemma replay_cons_same (d : Date) (src base : String) (nd : String × SheetData)
    (rest : List (String × SheetData)) (fs fsS : FS) (rec : Record)
    (hstep1 : sheet_step d src base nd fs = (rec, fs))
    (hstep2 : sheet_step d src base nd fsS = (rec, fsS))
    (hrec : rec.status ≠ .success)
    (hih : ∀ (fsA fsB : FS),
      fsExtends (process_sheets d src base rest fsA).2 fsB →
      (∀ r ∈ (process_sheets d src base rest fsB).1, r.status ≠ .success) ∧
      (∀ (i : Nat) (r : Record),
        (process_sheets d src base rest fsA).1[i]? = some r →
        r.status = .success →
        (process_sheets d src base rest fsB).1[i]? =
          some ⟨.skipped, r.file_path, some "File already exists",
            r.sheet_name, none⟩) ∧
      (process_sheets d src base rest fsB).2 = fsB)
    (hext : fsExtends (process_sheets d src base (nd :: rest) fs).2 fsS) :
    (∀ r ∈ (process_sheets d src base (nd :: rest) fsS).1,
      r.status ≠ .success) ∧
    (∀ (i : Nat) (r : Record),
      (process_sheets d src base (nd :: rest) fs).1[i]? = some r →
      r.status = .success →
      (process_sheets d src base (nd :: rest) fsS).1[i]? =
        some ⟨.skipped, r.file_path, some "File already exists",
          r.sheet_name, none⟩) ∧
    (process_sheets d src base (nd :: rest) fsS).2 = fsS := by
  have hext2 : fsExtends (process_sheets d src base rest fs).2 fsS := by
    simpa only [process_sheets, hstep1] using hext
  obtain ⟨ih1, ih2, ih3⟩ := hih fs fsS hext2
  refine ⟨?_, ?_, ?_⟩
  · intro r hr
    simp only [process_sheets, hstep2] at hr
    rcases List.mem_cons.mp hr with h1 | h1
    · subst h1
      exact hrec
    · exact ih1 r h1
  · intro i r hr hsucc
    cases i with
    | zero =>
      simp only [process_sheets, hstep1, List.getElem?_cons_zero] at hr
      injection hr with hr
      subst hr
      exact absurd hsucc hrec
    | succ j =>
      simp only [process_sheets, hstep1, List.getElem?_cons_succ] at hr
      simp only [process_sheets, hstep2, List.getElem?_cons_succ]
      exact ih2 j r hr hsucc
  · simp only [process_sheets, hstep2]
    exact ih3

lemma replay_cons_fresh (d : Date) (src base : String) (nd : String × SheetData)
    (rest : List (String × SheetData)) (fs fsS : FS)
    (p n : String) (k : Nat) (t : NormalizedTable)
    (hstep1 : sheet_step d src base nd fs =
      (⟨.success, p, none, n, some k⟩, (p, t) :: fs))
    (hstep2 : sheet_step d src base nd fsS =
      (⟨.skipped, p, some "File already exists", n, none⟩, fsS))
    (hih : ∀ (fsA fsB : FS),
      fsExtends (process_sheets d src base rest fsA).2 fsB →
      (∀ r ∈ (process_sheets d src base rest fsB).1, r.status ≠ .success) ∧
      (∀ (i : Nat) (r : Record),
        (process_sheets d src base rest fsA).1[i]? = some r →
        r.status = .success →
        (process_sheets d src base rest fsB).1[i]? =
          some ⟨.skipped, r.file_path, some "File already exists",
            r.sheet_name, none⟩) ∧
      (process_sheets d src base rest fsB).2 = fsB)
    (hext : fsExtends (process_sheets d src base (nd :: rest) fs).2 fsS) :
    (∀ r ∈ (process_sheets d src base (nd :: rest) fsS).1,
      r.status ≠ .success) ∧
    (∀ (i : Nat) (r : Record),
      (process_sheets d src base (nd :: rest) fs).1[i]? = some r →
      r.status = .success →
      (process_sheets d src base (nd :: rest) fsS).1[i]? =
        some ⟨.skipped, r.file_path, some "File already exists",
          r.sheet_name, none⟩) ∧
    (process_sheets d src base (nd :: rest) fsS).2 = fsS := by
  have hext2 : fsExtends (process_sheets d src base rest ((p, t) :: fs)).2 fsS := by
    simpa only [process_sheets, hstep1] using hext
  obtain ⟨ih1, ih2, ih3⟩ := hih ((p, t) :: fs) fsS hext2
  refine ⟨?_, ?_, ?_⟩
  · intro r hr
    simp only [process_sheets, hstep2] at hr
    rcases List.mem_cons.mp hr with h1 | h1
    · subst h1
      simp
    · exact ih1 r h1
  · intro i r hr hsucc
    cases i with
    | zero =>
      simp only [process_sheets, hstep1, List.getElem?_cons_zero] at hr
      injection hr with hr
      subst hr
      simp only [process_sheets, hstep2, List.getElem?_cons_zero]
    | succ j =>
      simp only [process_sheets, hstep1, List.getElem?_cons_succ] at hr
      simp only [process_sheets, hstep2, List.getElem?_cons_succ]
      exact ih2 j r hr hsucc
  · simp only [process_sheets, hstep2]
    exact ih3

lemma process_sheets_replay (d : Date) (src base : String) :
    ∀ (l : List (String × SheetData)) (fs fsS : FS),
      fsExtends (process_sheets d src base l fs).2 fsS →
      (∀ r ∈ (process_sheets d src base l fsS).1, r.status ≠ .success) ∧
      (∀ (i : Nat) (r : Record),
        (process_sheets d src base l fs).1[i]? = some r →
        r.status = .success →
        (process_sheets d src base l fsS).1[i]? =
          some ⟨.skipped, r.file_path, some "File already exists",
            r.sheet_name, none⟩) ∧
      (process_sheets d src base l fsS).2 = fsS := by
  intro l
  induction l with
  | nil =>
    intro fs fsS hext
    refine ⟨?_, ?_, rfl⟩
    · intro r hr
      simp [process_sheets] at hr
    · intro i r hr
      simp [process_sheets] at hr
  | cons nd rest ih =>
    intro fs fsS hext
    obtain ⟨n, sd⟩ := nd
    cases sd with
    | raises msg =>
      exact replay_cons_same d src base (n, .raises msg) rest fs fsS
        ⟨.error, src, some ("Sheet processing error: " ++ msg), n, none⟩
        rfl rfl (by simp) ih hext
    | ok g =>
      rcases hsp : sheet_pure g d n base with _ | _ | ⟨t, san, p⟩
      · have hstep1 : sheet_step d src base (n, SheetData.ok g) fs =
            (⟨.skipped, "", some "Sheet is empty or has insufficient data",
              n, none⟩, fs) :=
          process_sheet_skip1 g d n base fs hsp
        have hstep2 : sheet_step d src base (n, SheetData.ok g) fsS =
            (⟨.skipped, "", some "Sheet is empty or has insufficient data",
              n, none⟩, fsS) :=
          process_sheet_skip1 g d n base fsS hsp
        exact replay_cons_same d src base (n, .ok g) rest fs fsS _
          hstep1 hstep2 (by simp) ih hext
      · have hstep1 : sheet_step d src base (n, SheetData.ok g) fs =
            (⟨.skipped, "", some "No data rows after processing", n, none⟩, fs) :=
          process_sheet_skip2 g d n base fs hsp
        have hstep2 : sheet_step d src base (n, SheetData.ok g) fsS =
            (⟨.skipped, "", some "No data rows after processing", n, none⟩, fsS) :=
          process_sheet_skip2 g d n base fsS hsp
        exact replay_cons_same d src base (n, .ok g) rest fs fsS _
          hstep1 hstep2 (by simp) ih hext
      · rcases hex : fsLookup fs p with _ | u
        · have hstep1 : sheet_step d src base (n, SheetData.ok g) fs =
              (⟨.success, p, none, n, some t.rows.length⟩, (p, t) :: fs) :=
            process_sheet_fresh g d n base fs t san p hsp hex
          have hext2 : fsExtends
              (process_sheets d src base rest ((p, t) :: fs)).2 fsS := by
            simpa only [process_sheets, hstep1] using hext
          have hextPT : fsExtends ((p, t) :: fs) fsS :=
            fsExtends_trans
              (process_sheets_extends d src base rest ((p, t) :: fs)) hext2
          have hS := hextPT p t (fsLookup_cons_self fs p t)
          have hstep2 : sheet_step d src base (n, SheetData.ok g) fsS =
              (⟨.skipped, p, some "File already exists", n, none⟩, fsS) :=
            process_sheet_exists g d n base fsS t san p hsp (by rw [hS]; rfl)
          exact replay_cons_fresh d src base (n, .ok g) rest fs fsS p n
            t.rows.length t hstep1 hstep2 ih hext
        · have hstep1 : sheet_step d src base (n, SheetData.ok g) fs =
              (⟨.skipped, p, some "File already exists", n, none⟩, fs) :=
            process_sheet_exists g d n base fs t san p hsp (by rw [hex]; rfl)
          have hS := fsExtends_trans
            (process_sheet_extends g d n base fs)
            (fsExtends_trans
              (process_sheets_extends d src base rest
                (process_sheet g d n base fs).2)
              (by simpa only [process_sheets] using hext)) p u hex
          have hstep2 : sheet_step d src base (n, SheetData.ok g) fsS =
              (⟨.skipped, p, some "File already exists", n, none⟩, fsS) :=
            process_sheet_exists g d n base fsS t san p hsp (by rw [hS]; rfl)
          exact replay_cons_same d src base (n, .ok g) rest fs fsS _
            hstep1 hstep2 (by simp) ih hext

/-- C2: re-running the conversion of a workbook against the filesystem
left by the first run produces zero Success records; every sheet whose
first-run record was Success gets, at the same position, a Skipped
record with reason File already exists carrying the same output path;
the second run leaves the filesystem unchanged, and no run ever
overwrites the content recorded at an existing path. -/
theorem second_run_no_success (wb : Workbook) (d : Date) (src base : String)
    (fs : FS) :
    (∀ r ∈ (process_excel_file wb d src base
        (process_excel_file wb d src base fs).2).1, r.status ≠ .success) ∧
    (∀ (i : Nat) (r : Record),
      (process_excel_file wb d src base fs).1[i]? = some r →
      r.status = .success →
      (process_excel_file wb d src base
          (process_excel_file wb d src base fs).2).1[i]? =
        some ⟨.skipped, r.file_path, some "File already exists",
          r.sheet_name, none⟩) ∧
    (process_excel_file wb d src base
        (process_excel_file wb d src base fs).2).2 =
      (process_excel_file wb d src base fs).2 ∧
    fsExtends fs (process_excel_file wb d src base fs).2 := by
  cases wb with
  | openFail msg =>
    refine ⟨?_, ?_, rfl, fsExtends_refl fs⟩
    · intro r hr
      simp only [process_excel_file, List.mem_singleton] at hr
      subst hr
      simp
    · intro i r hr hsucc
      cases i with
      | zero =>
        simp only [process_excel_file, List.getElem?_cons_zero] at hr
        injection hr with hr
        subst hr
        simp at hsucc
      | succ j =>
        simp only [process_excel_file, List.getElem?_cons_succ] at hr
        simp at hr
  | sheets l =>
    have h := process_sheets_replay d src base l fs
      (process_sheets d src base l fs).2 (fsExtends_refl _)
    exact ⟨h.1, h.2.1, h.2.2, process_sheets_extends d src base l fs⟩

/-- Witness for the second-run theorem at the scenario workbook. -/
theorem second_run_no_success_witness :
    (process_excel_file (Workbook.sheets [("Q1 Report", SheetData.ok gridC3)])
        ⟨2024, 1, 15⟩ "src" "out"
        (process_excel_file (Workbook.sheets [("Q1 Report", SheetData.ok gridC3)])
          ⟨2024, 1, 15⟩ "src" "out" []).2).1[0]? =
      some ⟨.skipped, output_path "out" "Q1 Report" ⟨2024, 1, 15⟩,
        some "File already exists", "Q1 Report", none⟩ :=
  (second_run_no_success (Workbook.sheets [("Q1 Report", SheetData.ok gridC3)])
    ⟨2024, 1, 15⟩ "src" "out" []).2.1 0
    ⟨.success, output_path "out" "Q1 Report" ⟨2024, 1, 15⟩, none,
      "Q1 Report", some 1⟩ (by decide) rfl

end FPK
